import Mathlib

/-!
Shallow embedding of the design-system adoption scanner (src/index.js:
the CLI front-end plus the scanner module).  Numbers are modelled as
rationals: every constant the scanner manipulates (1.0, 0.75, 0.5,
0.875, 0.25) and every sum of them is an exact dyadic rational, so the
JavaScript doubles behave exactly like ℚ on them.  The JavaScript NaN
(arising from 0/0) is modelled as `none` of an `Option ℚ`.
Fallible JavaScript code (rejected promises, thrown TypeErrors) is
modelled with `Except`.
-/

namespace Scanner

/-! ### Configuration (index.js, DEFAULT_CONFIG) -/

structure ScanConfig where
  designSystemPackages : List String
  ignore : List String
  deriving Repr, DecidableEq

/-- `DEFAULT_CONFIG` from index.js. -/
def DEFAULT_CONFIG : ScanConfig :=
  { designSystemPackages := ["@ui-kit", "@ds"]
    ignore := ["**/*.spec.ts", "**/*.stories.ts"] }

/-! ### Weights (scanner.js, `WEIGHTS`) -/

/-- `WEIGHTS.designSystem = 1.0`. -/
def WEIGHTS.designSystem : ℚ := 1

/-- `WEIGHTS.custom = 0.75`. -/
def WEIGHTS.custom : ℚ := 3 / 4

/-- `WEIGHTS.htmlElement = 0.25` (declared but unused by the scanner). -/
def WEIGHTS.htmlElement : ℚ := 1 / 4

/-- `WEIGHTS.dynamicImport = 0.5`. -/
def WEIGHTS.dynamicImport : ℚ := 1 / 2

/-! ### Component records (the objects pushed by `analyzeFile`)

JavaScript records of the three shapes are merged into one structure;
fields a given shape does not set default to the value JavaScript
reads for a missing property (`undefined` is falsy, hence `false`;
an absent `usage`/`selector`/`source` is `none`). -/

structure Usage where
  inline : ℕ
  external : ℕ
  deriving Repr, DecidableEq

structure ComponentRecord where
  name : String
  isDesignSystem : Bool
  source : Option String := none
  filePath : String
  selector : Option String := none
  viaComposition : Bool := false
  usage : Option Usage := none
  isDynamicImport : Bool := false
  deriving Repr, DecidableEq

/-! ### Syntax-tree model

`analyzeFile` parses the file with Babel and walks the tree once with
three visitors (ImportDeclaration, ClassDeclaration, CallExpression).
We model a parsed file as the ordered list of nodes the walk visits;
`Node.other` stands for every node shape the visitors ignore. -/

inductive SpecifierType where
  | importSpecifier
  | importDefaultSpecifier
  | importNamespaceSpecifier
  deriving Repr, DecidableEq

structure ImportSpec where
  stype : SpecifierType
  localName : String
  deriving Repr, DecidableEq

/-- One `key: value` property of the decorator object literal;
`valueLit` is the `.value` field of the value node (a string for
literals, `none` otherwise). -/
structure Property where
  keyName : String
  valueLit : Option String := none
  deriving Repr, DecidableEq

/-- The first argument of a `@Component(...)` decorator call: an object
literal carries its `properties`; any other node has `properties`
`undefined` (reading `.find` on it throws). -/
inductive DecoratorArg where
  | objectPayload (props : List Property)
  | nonObject
  deriving Repr, DecidableEq

structure Decorator where
  calleeName : Option String := none
  calleePropName : Option String := none
  args : List DecoratorArg := []
  deriving Repr, DecidableEq

/-- `.value` of a call argument node: a string for string literals,
`none` (undefined) otherwise. -/
structure CallArg where
  valueLit : Option String := none
  deriving Repr, DecidableEq

inductive Node where
  | importDecl (source : String) (specifiers : List ImportSpec)
  | classDecl (cname : String) (decorators : List Decorator)
  | callExpr (calleeName : Option String) (args : List CallArg)
  | other
  deriving Repr, DecidableEq

/-! ### Import resolution (scanner.js, `resolveImport`)

`path.resolve(path.dirname(filePath), importPath)` and
`ts.resolveModuleName(...)` are external collaborators (the `path`
module and the TypeScript compiler); they enter the embedding as the
two functions of a `ResolveEnv`. -/

/-- The JavaScript `String.prototype.startsWith`, as a prefix test on
the character sequence. -/
def strStartsWith (s pre : String) : Bool := pre.toList.isPrefixOf s.toList

structure ResolveEnv where
  /-- `path.resolve(path.dirname(filePath), importPath)`;
  arguments in that order: the importing file, then the specifier. -/
  resolveRel : String → String → String
  /-- `ts.resolveModuleName(importPath, filePath, ...)
  .resolvedModule?.resolvedFileName`: `none` when resolution fails. -/
  tsResolve : String → String → Option String

def resolveImport (env : ResolveEnv) (importPath filePath : String) : String :=
  if strStartsWith importPath "." then env.resolveRel filePath importPath
  else (env.tsResolve importPath filePath).getD importPath

/-! ### Per-file analysis (scanner.js, `analyzeFile`)

The Babel traversal mutates two closure variables, `components` and
`usesDesignSystem`; we thread them as an explicit `ScanState`.
A visitor that throws a TypeError (the unguarded `arguments[0]`
accesses) is an `Except.error`, caught only by the outer
try/catch of `analyzeFile`. -/

structure ScanState where
  usesDesignSystem : Bool
  records : List ComponentRecord
  deriving Repr, DecidableEq

def initState : ScanState := ⟨false, []⟩

/-- Does a node source qualify as a design-system import?
(`config.designSystemPackages.some(pkg => resolvedSource.startsWith(pkg))`). -/
def isDesignSystemSource (cfg : ScanConfig) (env : ResolveEnv)
    (filePath source : String) : Bool :=
  cfg.designSystemPackages.any
    (fun pkg => strStartsWith (resolveImport env source filePath) pkg)

/-- The record pushed by the ImportDeclaration visitor for one
qualifying specifier (named or default only). -/
def importRecords (filePath resolvedSource : String)
    (specs : List ImportSpec) : List ComponentRecord :=
  specs.filterMap (fun s =>
    if s.stype = .importSpecifier ∨ s.stype = .importDefaultSpecifier then
      some { name := s.localName
             isDesignSystem := true
             source := some resolvedSource
             filePath := filePath
             usage := some ⟨0, 0⟩ }
    else none)

/-- The decorator test: callee name, or callee property name,
equals "Component" (bare or member-style reference). -/
def isComponentDecorator (d : Decorator) : Bool :=
  d.calleeName == some "Component" || d.calleePropName == some "Component"

/-- The record pushed by the ClassDeclaration visitor once the
decorator payload has been read. -/
def classRecord (cname filePath : String) (props : List Property)
    (usesDS : Bool) : ComponentRecord :=
  let selector := (props.find? (fun p => p.keyName == "selector")).bind
    (fun p => p.valueLit)
  let templateProp := props.find?
    (fun p => p.keyName == "template" || p.keyName == "templateUrl")
  let isInlineTemplate := match templateProp with
    | some p => p.keyName == "template"
    | none => false
  { name := cname
    selector := selector
    isDesignSystem := false
    source := some "custom"
    filePath := filePath
    viaComposition := usesDS
    usage := some ⟨if isInlineTemplate then 1 else 0,
                   if isInlineTemplate then 0 else 1⟩ }

/-- One traversal step: the three visitors of `analyzeFile`.
`Except.error ()` models a TypeError thrown inside the visitor:
`decorator.expression.arguments[0].properties` with no argument or a
non-object argument, and `path.node.arguments[0].value` with no
argument. -/
def stepNode (cfg : ScanConfig) (env : ResolveEnv) (filePath : String)
    (st : ScanState) : Node → Except Unit ScanState
  | .importDecl source specs =>
    let resolvedSource := resolveImport env source filePath
    if isDesignSystemSource cfg env filePath source then
      .ok ⟨true, st.records ++ importRecords filePath resolvedSource specs⟩
    else .ok st
  | .classDecl cname decorators =>
    match decorators.find? isComponentDecorator with
    | none => .ok st
    | some d =>
      match d.args.head? with
      | none => .error ()
      | some .nonObject => .error ()
      | some (.objectPayload props) =>
        .ok ⟨st.usesDesignSystem,
             st.records ++ [classRecord cname filePath props st.usesDesignSystem]⟩
  | .callExpr calleeName args =>
    if calleeName == some "loadChildren" then
      match args.head? with
      | none => .error ()
      | some a =>
        .ok ⟨st.usesDesignSystem,
             st.records ++ [{ name := "lazy-loaded"
                              isDesignSystem := false
                              source := a.valueLit
                              filePath := filePath
                              isDynamicImport := true }]⟩
    else .ok st
  | .other => .ok st

/-- The whole traversal, top to bottom. -/
def runNodes (cfg : ScanConfig) (env : ResolveEnv) (filePath : String)
    (st : ScanState) : List Node → Except Unit ScanState
  | [] => .ok st
  | n :: ns =>
    match stepNode cfg env filePath st n with
    | .error e => .error e
    | .ok st' => runNodes cfg env filePath st' ns

/-- A file handed to `analyzeFile`: reading may fail, parsing may
fail, otherwise the parsed node list. -/
inductive FileInput where
  | unreadable
  | unparsable
  | parsed (nodes : List Node)
  deriving Repr, DecidableEq

structure SourceFile where
  path : String
  input : FileInput
  deriving Repr, DecidableEq

/-- `analyzeFile` up to (not including) its try/catch: read, parse,
traverse; any failure is an `Except.error`. -/
def analyzeFileCore (cfg : ScanConfig) (env : ResolveEnv)
    (f : SourceFile) : Except Unit (List ComponentRecord) :=
  match f.input with
  | .unreadable => .error ()
  | .unparsable => .error ()
  | .parsed nodes =>
    match runNodes cfg env f.path initState nodes with
    | .error e => .error e
    | .ok st => .ok st.records

/-- `analyzeFile` with its catch: any failure yields `[]` for that
file only. -/
def analyzeFile (cfg : ScanConfig) (env : ResolveEnv)
    (f : SourceFile) : List ComponentRecord :=
  match analyzeFileCore cfg env f with
  | .ok records => records
  | .error _ => []

/-! ### Bounded-concurrency batch processing (scanner.js, `parallelProcess`)

`for (let i = 0; i < items.length; i += limit) batches.push(items.slice(i, i + limit))`
builds the batches; each batch is mapped and the results are spread
into one flat list.  For `limit = 0` the JavaScript loop never
terminates; the embedding returns `[]` on that branch, which no caller
reaches (the only call site uses the default limit 10). -/

def chunkList (l : List α) (limit : ℕ) : List (List α) :=
  if l.isEmpty ∨ limit = 0 then []
  else l.take limit :: chunkList (l.drop limit) limit
termination_by l.length
decreasing_by
  simp only [List.length_drop]
  have hne : ¬l.isEmpty ∧ ¬limit = 0 := by tauto
  have h1 : 0 < l.length := by
    cases l with
    | nil => simp [List.isEmpty] at hne
    | cons a as => simp
  omega

def parallelProcess (items : List α) (f : α → β) (limit : ℕ := 10) : List β :=
  ((chunkList items limit).map (fun batch => batch.map f)).flatten

/-! ### Incremental change detection (scanner.js, `getChangedFiles`)

The try/catch around `fs.access` on the .git directory catches only the
access failure: the function returns the `git diff` promise from
inside the `try` without awaiting it, so a rejection of that promise
(git missing or erroring) escapes the catch and propagates to the
caller.  `GitEnv` carries the two external outcomes. -/

structure GitEnv where
  /-- does the access check on the .git directory succeed? -/
  gitDirAccessible : Bool
  /-- outcome of the git diff subprocess: stdout, or the error the
  callback receives. -/
  diffResult : Except String String

def getChangedFiles (genv : GitEnv) : Except String (List String) :=
  if genv.gitDirAccessible then
    match genv.diffResult with
    | .error e => .error e
    | .ok stdout =>
      .ok (((stdout.trim).splitOn "\n").filter (fun file => file.endsWith ".ts"))
  else
    -- the catch logs a warning and reports zero changed files
    .ok []

/-- The file-set selection of `scanRepository`: incremental mode asks
`getChangedFiles` and falls back to the full glob result when the list
is empty; an error from `getChangedFiles` propagates (the `await`
rethrows it) and aborts the scan. -/
def selectFiles (genv : GitEnv) (fullScanFiles : List String)
    (incremental : Bool) : Except String (List String) :=
  if incremental then
    match getChangedFiles genv with
    | .error e => .error e
    | .ok files => if files.isEmpty then .ok fullScanFiles else .ok files
  else .ok fullScanFiles

/-! ### Aggregation (scanner.js, `scanRepository` lines 172-204)

`Math.round(x * 100) / 100` on a rational is `⌊x * 100 + 1/2⌋ / 100`
(the JavaScript Math.round rounds half toward +∞).  When
`totalComponents = 0` the code computes `(0 / 0) * 100 = NaN` and
`Math.round(NaN) / 100 = NaN`; `none` models that NaN. -/

def jsRound (x : ℚ) : ℤ := ⌊x + 1 / 2⌋

def round2 (x : ℚ) : ℚ := (jsRound (x * 100) : ℚ) / 100

/-- The per-record weight computed inside the `reduce` callback. -/
def recordWeight (c : ComponentRecord) : ℚ :=
  if c.isDesignSystem then WEIGHTS.designSystem
  else if c.isDynamicImport then WEIGHTS.dynamicImport
  else if c.viaComposition then (WEIGHTS.custom + WEIGHTS.designSystem) / 2
  else WEIGHTS.custom

/-- `flatComponents.reduce((sum, c) => ..., 0)`. -/
def weightedScoreRaw (records : List ComponentRecord) : ℚ :=
  records.foldl (fun sum c => sum + recordWeight c) 0

structure Summary where
  designSystemComponents : ℕ
  customComponents : ℕ
  totalComponents : ℕ
  /-- `none` models the NaN produced by `(weightedScore / 0) * 100`. -/
  adoptionPercentage : Option ℚ
  weightedScore : ℚ
  maxScore : ℚ
  deriving Repr, DecidableEq

def summarize (flatComponents : List ComponentRecord) : Summary :=
  let designSystemComponents := flatComponents.filter (fun c => c.isDesignSystem)
  let customComponents := flatComponents.filter (fun c => !c.isDesignSystem)
  let totalComponents := flatComponents.length
  let weightedScore := weightedScoreRaw flatComponents
  let maxScore : ℚ := (totalComponents : ℚ) * WEIGHTS.designSystem
  let adoptionPercentage : Option ℚ :=
    if maxScore = 0 then none else some (round2 (weightedScore / maxScore * 100))
  { designSystemComponents := designSystemComponents.length
    customComponents := customComponents.length
    totalComponents := totalComponents
    adoptionPercentage := adoptionPercentage
    weightedScore := round2 weightedScore
    maxScore := round2 maxScore }

/-- `parallelProcess(files, file => analyzeFile(...))` followed by
`components.flat()`. -/
def scanComponents (cfg : ScanConfig) (env : ResolveEnv)
    (files : List SourceFile) : List ComponentRecord :=
  (parallelProcess files (fun file => analyzeFile cfg env file)).flatten

structure ScanResult where
  summary : Summary
  components : List ComponentRecord
  deriving Repr, DecidableEq

/-- `scanRepository` after the file set has been fixed: analyze every
file under the batcher and fold the records into the summary. -/
def scanRepository (cfg : ScanConfig) (env : ResolveEnv)
    (files : List SourceFile) : ScanResult :=
  let flatComponents := scanComponents cfg env files
  { summary := summarize flatComponents, components := flatComponents }

/-! ### Lemmas about the batcher -/

theorem chunkList_nil {α : Type u} (k : ℕ) : chunkList ([] : List α) k = [] := by
  rw [chunkList]
  simp

theorem chunkList_pos {α : Type u} (l : List α) (k : ℕ) (hl : l ≠ [])
    (hk : k ≠ 0) : chunkList l k = l.take k :: chunkList (l.drop k) k := by
  rw [chunkList]
  rw [if_neg]
  simp [List.isEmpty_iff, hl, hk]

theorem chunkList_flatten {α : Type u} (k : ℕ) (hk : 0 < k) :
    (l : List α) → (chunkList l k).flatten = l
  | [] => by rw [chunkList_nil]; rfl
  | (a :: as) => by
    rw [chunkList_pos (a :: as) k (by simp) (by omega)]
    rw [List.flatten_cons, chunkList_flatten k hk ((a :: as).drop k)]
    exact List.take_append_drop k (a :: as)
termination_by l => l.length
decreasing_by
  simp only [List.length_drop]
  simp
  omega

theorem chunkList_batch_le {α : Type u} (k : ℕ) :
    (l : List α) → ∀ b ∈ chunkList l k, b.length ≤ k
  | [] => by rw [chunkList_nil]; simp
  | (a :: as) => by
    by_cases hk : k = 0
    · rw [hk, chunkList]
      simp
    · rw [chunkList_pos (a :: as) k (by simp) hk]
      intro b hb
      rcases List.mem_cons.mp hb with hb | hb
      · subst hb
        exact List.length_take_le k (a :: as)
      · exact chunkList_batch_le k ((a :: as).drop k) b hb
termination_by l => l.length
decreasing_by
  simp only [List.length_drop]
  simp
  omega

theorem chunkList_length {α : Type u} (k : ℕ) (hk : 0 < k) :
    (l : List α) → (chunkList l k).length = (l.length + k - 1) / k
  | [] => by
    rw [chunkList_nil]
    simp
    exact (Nat.div_eq_of_lt (by omega)).symm
  | (a :: as) => by
    rw [chunkList_pos (a :: as) k (by simp) (by omega)]
    have h1 : 0 < (a :: as).length := by simp
    have hrec := chunkList_length k hk ((a :: as).drop k)
    simp only [List.length_cons, hrec, List.length_drop]
    rcases Nat.lt_or_ge (as.length + 1) k with hlt | hge
    · have hz : as.length + 1 - k = 0 := by omega
      rw [hz]
      have he : (0 + k - 1) / k = 0 := Nat.div_eq_of_lt (by omega)
      rw [he]
      have h3 : as.length + 1 + k - 1 = as.length + k := by omega
      rw [h3, Nat.add_div_right _ hk, Nat.div_eq_of_lt (by omega)]
    · have h2 : as.length + 1 - k + k - 1 = as.length + 1 - 1 := by omega
      have h3 : as.length + 1 + k - 1 = (as.length + 1 - 1) + k := by omega
      rw [h2, h3, Nat.add_div_right _ hk]
termination_by l => l.length
decreasing_by
  simp only [List.length_drop]
  simp
  omega

theorem parallelProcess_eq_map {α : Type u} {β : Type v}
    (items : List α) (f : α → β) (limit : ℕ) (hk : 0 < limit) :
    parallelProcess items f limit = items.map f := by
  rw [parallelProcess, ← List.map_flatten, chunkList_flatten limit hk]

/-! ### Lemmas about the traversal -/

/-- Is this node an import whose resolved source qualifies as a
design-system package? -/
def isQualifyingImportNode (cfg : ScanConfig) (env : ResolveEnv)
    (filePath : String) : Node → Bool
  | .importDecl source _ => isDesignSystemSource cfg env filePath source
  | _ => false

theorem runNodes_append (cfg : ScanConfig) (env : ResolveEnv) (fp : String)
    (l₁ l₂ : List Node) (st : ScanState) :
    runNodes cfg env fp st (l₁ ++ l₂) =
      match runNodes cfg env fp st l₁ with
      | .error e => .error e
      | .ok st' => runNodes cfg env fp st' l₂ := by
  induction l₁ generalizing st with
  | nil => rfl
  | cons n ns ih =>
    rw [List.cons_append, runNodes, runNodes]
    cases stepNode cfg env fp st n with
    | error e => rfl
    | ok st' => exact ih st'

theorem stepNode_usesDS (cfg : ScanConfig) (env : ResolveEnv) (fp : String)
    (st st' : ScanState) (n : Node) (h : stepNode cfg env fp st n = .ok st') :
    st'.usesDesignSystem =
      (st.usesDesignSystem || isQualifyingImportNode cfg env fp n) := by
  cases n with
  | importDecl source specs =>
    rw [stepNode] at h
    by_cases hq : isDesignSystemSource cfg env fp source
    · rw [if_pos hq] at h
      cases h
      simp [isQualifyingImportNode, hq]
    · rw [if_neg hq] at h
      cases h
      simp [isQualifyingImportNode, hq]
  | classDecl cname decorators =>
    rw [stepNode] at h
    cases hd : decorators.find? isComponentDecorator with
    | none =>
      rw [hd] at h
      cases h
      simp [isQualifyingImportNode]
    | some d =>
      rw [hd] at h
      dsimp only at h
      cases ha : d.args.head? with
      | none => rw [ha] at h; cases h
      | some arg =>
        rw [ha] at h
        cases arg with
        | nonObject => cases h
        | objectPayload props =>
          cases h
          simp [isQualifyingImportNode]
  | callExpr calleeName args =>
    rw [stepNode] at h
    by_cases hc : calleeName == some "loadChildren"
    · rw [if_pos hc] at h
      cases ha : args.head? with
      | none => rw [ha] at h; cases h
      | some a =>
        rw [ha] at h
        cases h
        simp [isQualifyingImportNode]
    · rw [if_neg hc] at h
      cases h
      simp [isQualifyingImportNode]
  | other =>
    rw [stepNode] at h
    cases h
    simp [isQualifyingImportNode]

theorem runNodes_usesDS (cfg : ScanConfig) (env : ResolveEnv) (fp : String)
    (l : List Node) (st st' : ScanState)
    (h : runNodes cfg env fp st l = .ok st') :
    st'.usesDesignSystem =
      (st.usesDesignSystem || l.any (isQualifyingImportNode cfg env fp)) := by
  induction l generalizing st with
  | nil =>
    rw [runNodes] at h
    cases h
    simp
  | cons n ns ih =>
    rw [runNodes] at h
    cases hs : stepNode cfg env fp st n with
    | error e => rw [hs] at h; cases h
    | ok st₁ =>
      rw [hs] at h
      have h1 := stepNode_usesDS cfg env fp st st₁ n hs
      have h2 := ih st₁ h
      rw [h2, h1, List.any_cons]
      cases st.usesDesignSystem <;>
        cases isQualifyingImportNode cfg env fp n <;> simp

/-! ### Lemmas about the aggregation -/

theorem weightedScoreRaw_foldl (l : List ComponentRecord) (a : ℚ) :
    l.foldl (fun sum c => sum + recordWeight c) a =
      a + (l.map recordWeight).sum := by
  induction l generalizing a with
  | nil => simp
  | cons c cs ih =>
    rw [List.foldl_cons, ih, List.map_cons, List.sum_cons]
    ring

theorem weightedScoreRaw_eq_sum (l : List ComponentRecord) :
    weightedScoreRaw l = (l.map recordWeight).sum := by
  rw [weightedScoreRaw, weightedScoreRaw_foldl]
  ring

theorem recordWeight_nonneg (c : ComponentRecord) : 0 ≤ recordWeight c := by
  rw [recordWeight]
  rw [WEIGHTS.designSystem, WEIGHTS.custom, WEIGHTS.dynamicImport]
  split
  · norm_num
  · split
    · norm_num
    · split <;> norm_num

theorem recordWeight_le_one (c : ComponentRecord) : recordWeight c ≤ 1 := by
  rw [recordWeight]
  rw [WEIGHTS.designSystem, WEIGHTS.custom, WEIGHTS.dynamicImport]
  split
  · norm_num
  · split
    · norm_num
    · split <;> norm_num

theorem weightedScoreRaw_le_length (l : List ComponentRecord) :
    weightedScoreRaw l ≤ (l.length : ℚ) := by
  rw [weightedScoreRaw_eq_sum]
  induction l with
  | nil => simp
  | cons c cs ih =>
    rw [List.map_cons, List.sum_cons, List.length_cons]
    push_cast
    have := recordWeight_le_one c
    linarith

theorem jsRound_mono {x y : ℚ} (h : x ≤ y) : jsRound x ≤ jsRound y := by
  rw [jsRound, jsRound]
  exact Int.floor_le_floor (by linarith)

theorem round2_mono {x y : ℚ} (h : x ≤ y) : round2 x ≤ round2 y := by
  rw [round2, round2]
  have h1 : jsRound (x * 100) ≤ jsRound (y * 100) :=
    jsRound_mono (by linarith)
  have h2 : (jsRound (x * 100) : ℚ) ≤ (jsRound (y * 100) : ℚ) := by
    exact_mod_cast h1
  linarith

/-! ### Record classification

The three mutually exclusive record kinds, read off the flags exactly
in the order the aggregating `reduce` callback tests them. -/

inductive Classification where
  | designSystemImport
  | dynamicImportReference
  | customComponent
  deriving Repr, DecidableEq

def classify (c : ComponentRecord) : Classification :=
  if c.isDesignSystem then .designSystemImport
  else if c.isDynamicImport then .dynamicImportReference
  else .customComponent

/-! ### Sample inputs used by the concrete-evaluation theorems -/

/-- A resolution environment where compiler-based resolution always
fails, so the raw specifier is what prefix matching sees. -/
def sampleEnv : ResolveEnv := ⟨fun _ sp => sp, fun _ _ => none⟩

/-- `import { Button } from "@ui-kit/button";` -/
def sampleImport : Node :=
  .importDecl "@ui-kit/button" [⟨.importSpecifier, "Button"⟩]

/-- The record the ImportDeclaration visitor pushes for
`sampleImport`. -/
def buttonRecord : ComponentRecord :=
  { name := "Button"
    isDesignSystem := true
    source := some "@ui-kit/button"
    filePath := "app.component.ts"
    usage := some ⟨0, 0⟩ }

/-- A class carrying a Component decorator whose payload holds only a
selector: no template field of either kind. -/
def noTemplateClassFile : SourceFile :=
  ⟨"app.component.ts",
   .parsed [.classDecl "FooComponent"
     [{ calleeName := some "Component"
        args := [.objectPayload [⟨"selector", some "app-foo"⟩]] }]]⟩

/-- A design-system import followed by a class whose Component
decorator is applied with no argument at all. -/
def importThenBareDecoratorFile : SourceFile :=
  ⟨"app.component.ts",
   .parsed [sampleImport,
            .classDecl "FooComponent"
              [{ calleeName := some "Component", args := [] }]]⟩

/-- A design-system import followed by a `loadChildren()` call with no
arguments. -/
def importThenBareCallFile : SourceFile :=
  ⟨"app.component.ts",
   .parsed [sampleImport, .callExpr (some "loadChildren") []]⟩

/-! ### The claims -/

/-- C1: when the scanned file set yields zero component records the
summary has `totalComponents = 0`, but computing `adoptionPercentage`
evaluates `(0 / 0) * 100 = NaN` (modelled `none`): no explicit policy
value is returned, contradicting the claim — the unrepresentable NaN
is produced silently. -/
theorem zero_records_percentage_is_nan :
    (scanRepository DEFAULT_CONFIG sampleEnv []).summary.totalComponents = 0 ∧
    (scanRepository DEFAULT_CONFIG sampleEnv []).summary.adoptionPercentage
      = none ∧
    (summarize []).adoptionPercentage = none := by
  have hscan : scanComponents DEFAULT_CONFIG sampleEnv [] = [] := by
    rw [scanComponents, parallelProcess, chunkList_nil]
    rfl
  have hsum : (summarize []).adoptionPercentage = none := by
    rw [summarize]
    norm_num [WEIGHTS.designSystem]
  refine ⟨?_, ?_, hsum⟩
  · rw [scanRepository, hscan]
    rfl
  · rw [scanRepository, hscan]
    exact hsum

/-- C2: when the tracking metadata (.git) is absent, `getChangedFiles`
does return `.ok []` and the caller falls back to the full scan; but
when the metadata is present and the git diff query itself errors, the
rejection escapes the catch (the promise is returned from inside the
try without being awaited) and propagates, aborting the scan —
contradicting the claim for the query-error case. -/
theorem changed_files_query_error_propagates :
    getChangedFiles ⟨false, .error "spawn git failed"⟩ = .ok [] ∧
    selectFiles ⟨false, .error "spawn git failed"⟩ ["app.component.ts"] true
      = .ok ["app.component.ts"] ∧
    getChangedFiles ⟨true, .error "spawn git failed"⟩
      = .error "spawn git failed" ∧
    selectFiles ⟨true, .error "spawn git failed"⟩ ["app.component.ts"] true
      = .error "spawn git failed" :=
  ⟨rfl, rfl, rfl, rfl⟩

/-- C3 counterexample: a class whose decorator payload has no template
field of either kind yields a record with `usage = {inline: 0,
external: 1}`, not `{inline: 0, external: 0}` as the claim states. -/
theorem absent_template_not_both_zero :
    (analyzeFile DEFAULT_CONFIG sampleEnv noTemplateClassFile).map
        (fun c => c.usage) = [some ⟨0, 1⟩] ∧
    ¬((analyzeFile DEFAULT_CONFIG sampleEnv noTemplateClassFile).map
        (fun c => c.usage) = [some ⟨0, 0⟩]) := by
  constructor
  · decide
  · decide

/-- C3 amended: for every custom-component record emitted for an
annotated class whose payload contains neither an inline-template nor
an external-template field, the usage shape has `inline = 0` and
`external = 1` (the absent-template case falls into the external
branch of the ternary). -/
theorem absent_template_usage_shape (cfg : ScanConfig) (env : ResolveEnv)
    (fp cname : String) (decs : List Decorator) (d : Decorator)
    (props : List Property) (st : ScanState)
    (hfind : decs.find? isComponentDecorator = some d)
    (hargs : d.args.head? = some (.objectPayload props))
    (hno : props.find?
      (fun p => p.keyName == "template" || p.keyName == "templateUrl") = none) :
    stepNode cfg env fp st (.classDecl cname decs) =
      .ok ⟨st.usesDesignSystem,
           st.records ++ [classRecord cname fp props st.usesDesignSystem]⟩ ∧
    (classRecord cname fp props st.usesDesignSystem).usage = some ⟨0, 1⟩ := by
  constructor
  · rw [stepNode, hfind]
    dsimp only
    rw [hargs]
  · rw [classRecord]
    simp only [hno]
    rfl

/-- C3 amended, witness. -/
theorem absent_template_usage_shape_witness :
    stepNode DEFAULT_CONFIG sampleEnv "app.component.ts" initState
        (.classDecl "FooComponent"
          [{ calleeName := some "Component"
             args := [.objectPayload [⟨"selector", some "app-foo"⟩]] }]) =
      .ok ⟨false, [classRecord "FooComponent" "app.component.ts"
                     [⟨"selector", some "app-foo"⟩] false]⟩ ∧
    (classRecord "FooComponent" "app.component.ts"
        [⟨"selector", some "app-foo"⟩] false).usage = some ⟨0, 1⟩ :=
  absent_template_usage_shape DEFAULT_CONFIG sampleEnv "app.component.ts"
    "FooComponent"
    [{ calleeName := some "Component"
       args := [.objectPayload [⟨"selector", some "app-foo"⟩]] }]
    { calleeName := some "Component"
      args := [.objectPayload [⟨"selector", some "app-foo"⟩]] }
    [⟨"selector", some "app-foo"⟩] initState
    (by decide) (by decide) (by decide)

/-- C10: a file that reads and parses successfully can still be
discarded wholesale: a Component decorator applied with no argument
(or a loadChildren call with no argument) makes the visitor read the
missing first argument and throw, the per-file catch returns `[]`, and
the design-system import record collected earlier in the same file is
thrown away. -/
theorem parsed_file_discarded_by_unguarded_reads :
    analyzeFileCore DEFAULT_CONFIG sampleEnv importThenBareDecoratorFile
      = .error () ∧
    analyzeFile DEFAULT_CONFIG sampleEnv importThenBareDecoratorFile = [] ∧
    analyzeFileCore DEFAULT_CONFIG sampleEnv importThenBareCallFile
      = .error () ∧
    analyzeFile DEFAULT_CONFIG sampleEnv importThenBareCallFile = [] ∧
    runNodes DEFAULT_CONFIG sampleEnv "app.component.ts" initState
      [sampleImport] = .ok ⟨true, [buttonRecord]⟩ ∧
    analyzeFile DEFAULT_CONFIG sampleEnv
      ⟨"app.component.ts", .parsed [sampleImport]⟩ = [buttonRecord] :=
  ⟨rfl, by decide, rfl, by decide, rfl, by decide⟩

theorem recordWeight_classRecord (cname fp : String) (props : List Property)
    (b : Bool) :
    recordWeight (classRecord cname fp props b) =
      if b then 7 / 8 else 3 / 4 := by
  rw [recordWeight]
  have h1 : (classRecord cname fp props b).isDesignSystem = false := rfl
  have h2 : (classRecord cname fp props b).isDynamicImport = false := rfl
  have h3 : (classRecord cname fp props b).viaComposition = b := rfl
  rw [h1, h2, h3]
  cases b <;> norm_num [WEIGHTS.custom, WEIGHTS.designSystem]

/-- C4: the record emitted for an annotated class has
`viaComposition` equal to the running accumulator, which is true
exactly when a qualifying design-system import occurs earlier in the
file order; the record then weighs 0.875, otherwise 0.75.
Instantiating `pre` with a qualifying import gives the import-before
case, and instantiating `pre` without one (placing the import in
`post`) gives the import-after case. -/
theorem composition_flag_tracks_declaration_order (cfg : ScanConfig)
    (env : ResolveEnv) (fp : String) (pre post : List Node) (cname : String)
    (decs : List Decorator) (d : Decorator) (props : List Property)
    (st₁ st₂ : ScanState)
    (hfind : decs.find? isComponentDecorator = some d)
    (hargs : d.args.head? = some (.objectPayload props))
    (hpre : runNodes cfg env fp initState pre = .ok st₁)
    (hpost : runNodes cfg env fp
      ⟨st₁.usesDesignSystem,
       st₁.records ++ [classRecord cname fp props st₁.usesDesignSystem]⟩
      post = .ok st₂) :
    analyzeFile cfg env ⟨fp, .parsed (pre ++ .classDecl cname decs :: post)⟩
      = st₂.records ∧
    (classRecord cname fp props st₁.usesDesignSystem).viaComposition
      = pre.any (isQualifyingImportNode cfg env fp) ∧
    recordWeight (classRecord cname fp props st₁.usesDesignSystem)
      = (if pre.any (isQualifyingImportNode cfg env fp)
         then 7 / 8 else 3 / 4) := by
  have hstep : stepNode cfg env fp st₁ (.classDecl cname decs) =
      .ok ⟨st₁.usesDesignSystem,
           st₁.records ++ [classRecord cname fp props st₁.usesDesignSystem]⟩ := by
    rw [stepNode, hfind]
    dsimp only
    rw [hargs]
  have hrun : runNodes cfg env fp initState
      (pre ++ .classDecl cname decs :: post) = .ok st₂ := by
    rw [runNodes_append, hpre]
    dsimp only
    rw [runNodes, hstep]
    exact hpost
  have hds : st₁.usesDesignSystem =
      pre.any (isQualifyingImportNode cfg env fp) := by
    have h := runNodes_usesDS cfg env fp pre initState st₁ hpre
    simpa [initState] using h
  refine ⟨?_, ?_, ?_⟩
  · rw [analyzeFile, analyzeFileCore]
    dsimp only
    rw [hrun]
  · have hvc : (classRecord cname fp props st₁.usesDesignSystem).viaComposition
        = st₁.usesDesignSystem := rfl
    rw [hvc, hds]
  · rw [recordWeight_classRecord, hds]

/-- C4, witness: a design-system import placed before the annotated
class yields `viaComposition = true` and weight 0.875. -/
theorem composition_flag_tracks_declaration_order_witness :
    runNodes DEFAULT_CONFIG sampleEnv "app.component.ts" initState
      [sampleImport] = .ok ⟨true, [buttonRecord]⟩ ∧
    (analyzeFile DEFAULT_CONFIG sampleEnv
        ⟨"app.component.ts",
         .parsed ([sampleImport] ++ .classDecl "FooComponent"
           [{ calleeName := some "Component", args := [.objectPayload []] }]
           :: [])⟩
      = ((⟨(⟨true, [buttonRecord]⟩ : ScanState).usesDesignSystem,
          (⟨true, [buttonRecord]⟩ : ScanState).records ++
            [classRecord "FooComponent" "app.component.ts" []
              (⟨true, [buttonRecord]⟩ : ScanState).usesDesignSystem]⟩
          : ScanState)).records ∧
    (classRecord "FooComponent" "app.component.ts" []
        (⟨true, [buttonRecord]⟩ : ScanState).usesDesignSystem).viaComposition
      = [sampleImport].any
          (isQualifyingImportNode DEFAULT_CONFIG sampleEnv "app.component.ts") ∧
    recordWeight (classRecord "FooComponent" "app.component.ts" []
        (⟨true, [buttonRecord]⟩ : ScanState).usesDesignSystem)
      = (if [sampleImport].any
            (isQualifyingImportNode DEFAULT_CONFIG sampleEnv "app.component.ts")
         then 7 / 8 else 3 / 4)) :=
  ⟨rfl,
   composition_flag_tracks_declaration_order DEFAULT_CONFIG sampleEnv
     "app.component.ts" [sampleImport] [] "FooComponent"
     [{ calleeName := some "Component", args := [.objectPayload []] }]
     { calleeName := some "Component", args := [.objectPayload []] }
     [] ⟨true, [buttonRecord]⟩ _ (by decide) (by decide) rfl rfl⟩

/-- C5: the aggregating fold weighs each record solely from its
classification — design-system imports 1.0, dynamic-import references
0.5, custom components 0.875 when `viaComposition` holds and 0.75
otherwise; the reported weighted score is the (rounded) sum of those
weights and the reported maximum is the (rounded) record count times
1.0. -/
theorem aggregator_weights (c : ComponentRecord) (rs : List ComponentRecord) :
    recordWeight c = (match classify c with
      | .designSystemImport => 1
      | .dynamicImportReference => 1 / 2
      | .customComponent => if c.viaComposition then 7 / 8 else 3 / 4) ∧
    (summarize rs).weightedScore = round2 ((rs.map recordWeight).sum) ∧
    (summarize rs).maxScore = round2 ((rs.length : ℚ) * 1) := by
  refine ⟨?_, ?_, ?_⟩
  · rw [recordWeight, classify]
    by_cases h1 : c.isDesignSystem <;> by_cases h2 : c.isDynamicImport <;>
      by_cases h3 : c.viaComposition <;>
      simp [h1, h2, h3, WEIGHTS.designSystem, WEIGHTS.dynamicImport,
            WEIGHTS.custom] <;>
      norm_num
  · have h : (summarize rs).weightedScore = round2 (weightedScoreRaw rs) := rfl
    rw [h, weightedScoreRaw_eq_sum]
  · rfl

/-- C6: a file whose analysis fails inside the per-file boundary
contributes `[]` and nothing else changes: the scan result is always
the concatenation of the per-file record lists, and replacing any one
file by a failing one only replaces that file's contribution by `[]`. -/
theorem failing_file_contributes_nothing (cfg : ScanConfig) (env : ResolveEnv)
    (files : List SourceFile) (i : ℕ) (bad : SourceFile)
    (hbad : analyzeFileCore cfg env bad = .error ()) :
    analyzeFile cfg env bad = [] ∧
    scanComponents cfg env files
      = (files.map (analyzeFile cfg env)).flatten ∧
    scanComponents cfg env (files.set i bad)
      = ((files.map (analyzeFile cfg env)).set i []).flatten := by
  have hempty : analyzeFile cfg env bad = [] := by
    rw [analyzeFile, hbad]
  refine ⟨hempty, ?_, ?_⟩
  · rw [scanComponents,
        parallelProcess_eq_map files (fun f => analyzeFile cfg env f) 10
          (by norm_num)]
  · rw [scanComponents,
        parallelProcess_eq_map (files.set i bad)
          (fun f => analyzeFile cfg env f) 10 (by norm_num),
        List.map_set]
    rw [hempty]

/-- C6, witness: an unreadable file replacing the first file of a
one-file list. -/
theorem failing_file_contributes_nothing_witness :
    analyzeFileCore DEFAULT_CONFIG sampleEnv ⟨"broken.ts", .unreadable⟩
      = .error () ∧
    (analyzeFile DEFAULT_CONFIG sampleEnv ⟨"broken.ts", .unreadable⟩ = [] ∧
     scanComponents DEFAULT_CONFIG sampleEnv
         [⟨"app.component.ts", .parsed [sampleImport]⟩]
       = ([⟨"app.component.ts", .parsed [sampleImport]⟩].map
           (analyzeFile DEFAULT_CONFIG sampleEnv)).flatten ∧
     scanComponents DEFAULT_CONFIG sampleEnv
         ([⟨"app.component.ts", .parsed [sampleImport]⟩].set 0
           ⟨"broken.ts", .unreadable⟩)
       = (([⟨"app.component.ts", .parsed [sampleImport]⟩].map
           (analyzeFile DEFAULT_CONFIG sampleEnv)).set 0 []).flatten) :=
  ⟨rfl,
   failing_file_contributes_nothing DEFAULT_CONFIG sampleEnv
     [⟨"app.component.ts", .parsed [sampleImport]⟩] 0
     ⟨"broken.ts", .unreadable⟩ rfl⟩

/-- C7: the batcher splits N items into ceil(N/L) batches of at most L
items, preserving order, and the flat result list is exactly the
per-item function mapped over the input list in order. -/
theorem parallel_process_batches {α : Type u} {β : Type v} (items : List α)
    (f : α → β) (limit : ℕ) (h : 0 < limit) :
    (chunkList items limit).length = (items.length + limit - 1) / limit ∧
    (∀ b ∈ chunkList items limit, b.length ≤ limit) ∧
    parallelProcess items f limit = items.map f :=
  ⟨chunkList_length limit h items, chunkList_batch_le limit items,
   parallelProcess_eq_map items f limit h⟩

/-- C7, witness: three items under limit 2 make two ordered batches. -/
theorem parallel_process_batches_witness :
    0 < 2 ∧
    ((chunkList [10, 20, 30] 2).length = (([10, 20, 30] : List ℕ).length + 2 - 1) / 2 ∧
     (∀ b ∈ chunkList [10, 20, 30] 2, b.length ≤ 2) ∧
     parallelProcess [10, 20, 30] (fun n => n + 1) 2
       = ([10, 20, 30] : List ℕ).map (fun n => n + 1)) :=
  ⟨by decide, parallel_process_batches [10, 20, 30] (fun n => n + 1) 2
    (by decide)⟩

/-- C8: the reported weighted score never exceeds the reported maximum
score: every per-record weight is at most 1 and the two-decimal
rounding is monotone. -/
theorem weighted_score_le_max_score (rs : List ComponentRecord) :
    (summarize rs).weightedScore ≤ (summarize rs).maxScore := by
  have h1 : weightedScoreRaw rs ≤ (rs.length : ℚ) * WEIGHTS.designSystem := by
    rw [WEIGHTS.designSystem, mul_one]
    exact weightedScoreRaw_le_length rs
  exact round2_mono h1

theorem filter_ds_length_partition (rs : List ComponentRecord) :
    (rs.filter (fun c => c.isDesignSystem)).length
      + (rs.filter (fun c => !c.isDesignSystem)).length = rs.length := by
  induction rs with
  | nil => rfl
  | cons c cs ih =>
    cases hc : c.isDesignSystem <;> simp [List.filter_cons, hc] <;> omega

theorem filter_custom_split (rs : List ComponentRecord) :
    (rs.filter (fun c => !c.isDesignSystem)).length
      = (rs.filter (fun c => c.isDynamicImport && !c.isDesignSystem)).length
        + (rs.filter (fun c => !c.isDynamicImport && !c.isDesignSystem)).length := by
  induction rs with
  | nil => rfl
  | cons c cs ih =>
    cases h1 : c.isDesignSystem <;> cases h2 : c.isDynamicImport <;>
      simp [List.filter_cons, h1, h2] <;> omega

/-- C9: the design-system count plus the custom count equals the total
count — the records are partitioned by the boolean `isDesignSystem`
alone, and every dynamic-import record (its `isDesignSystem` is false)
is counted inside the custom count. -/
theorem summary_counts_partition (rs : List ComponentRecord) :
    (summarize rs).designSystemComponents + (summarize rs).customComponents
      = (summarize rs).totalComponents ∧
    (summarize rs).customComponents
      = (rs.filter (fun c => c.isDynamicImport && !c.isDesignSystem)).length
        + (rs.filter (fun c => !c.isDynamicImport && !c.isDesignSystem)).length := by
  have hA : (summarize rs).designSystemComponents
      = (rs.filter (fun c => c.isDesignSystem)).length := rfl
  have hB : (summarize rs).customComponents
      = (rs.filter (fun c => !c.isDesignSystem)).length := rfl
  have hT : (summarize rs).totalComponents = rs.length := rfl
  rw [hA, hB, hT]
  exact ⟨filter_ds_length_partition rs, filter_custom_split rs⟩

end Scanner
